import Mathlib

/-!
# Verification of the social-engager discovery/engagement core

A shallow embedding of the Python sources under `src/` (adapters/base.py,
core/discovery.py, core/engagement.py, core/analytics.py, core/engine.py)
together with theorems settling the frozen claims about them.

Conventions of the embedding:
* Python `datetime` values become integer epoch seconds (`Int`); the
  evaluation time `datetime.now()` becomes an explicit parameter `now`.
* Python floats become exact rationals (`ℚ`): the score arithmetic of
  `Discovery._calculate_score` is embedded with exact division.
* Like counts and other cardinalities become `Nat`; Python `int` fields
  that may be configured negative (like-range bounds, delays, the daily
  cap) become `Int`.
* Fallible collaborator capabilities become `Except String`-valued
  functions; a raised exception is an `Except.error`.
* The SQLite tables of `Analytics` become lists of rows; the
  `daily_stats` upsert keyed on the `date` primary key becomes an update
  of the first (unique) matching row of the list.
-/

namespace SocialEngager

/-- `Platform` enum of adapters/base.py. -/
inductive Platform where
  | instagram
  | twitter
  | tiktok
  | linkedin
deriving DecidableEq, Repr

/-- `Platform.value`: the string payload of each enum member. -/
def Platform.value : Platform → String
  | .instagram => "instagram"
  | .twitter => "twitter"
  | .tiktok => "tiktok"
  | .linkedin => "linkedin"

instance : BEq Platform := ⟨fun a b => decide (a = b)⟩

instance : LawfulBEq Platform where
  eq_of_beq h := by simpa [BEq.beq] using h
  rfl := by intro a; simp [BEq.beq]

/-- `Post` dataclass of adapters/base.py.  `timestamp` is epoch seconds. -/
structure Post where
  platform : Platform
  post_id : String
  url : String
  author : String
  author_id : String
  content : String
  image_url : Option String := none
  likes : Nat := 0
  comments_count : Nat := 0
  timestamp : Option Int := none
  location : Option String := none
  hashtags : List String := []
deriving DecidableEq, Repr

/-- `EngagementResult` dataclass of adapters/base.py.  The `timestamp`
filled in by `__post_init__` is an epoch-second stamp. -/
structure EngagementResult where
  success : Bool
  platform : Platform
  action : String
  post_id : String
  message : Option String := none
  error : Option String := none
  timestamp : Int := 0
deriving DecidableEq, Repr

/-- `DiscoveryConfig` dataclass of core/discovery.py. -/
structure DiscoveryConfig where
  platforms : List Platform := [Platform.instagram]
  hashtags : List String := []
  keywords : List String := []
  location : Option String := none
  min_likes : Int := 0
  max_likes : Int := 1000000
  posts_age_hours : Int := 24
  limit : Nat := 20
  exclude_users : List String := []
  exclude_hashtags : List String := []
deriving Repr

/-- `DiscoveredPost` dataclass of core/discovery.py. -/
structure DiscoveredPost where
  post : Post
  engagement_score : ℚ := 0
  reason : String := ""
  filters_passed : List String := []
deriving DecidableEq, Repr

/-- Python `needle in haystack` on strings: substring containment. -/
def strContains (haystack needle : String) : Bool :=
  decide (needle.toList <:+: haystack.toList)

/-- `Discovery._calculate_score` (core/discovery.py lines 111-139): the
like-magnitude term capped at 10, the recency bonus, +2 per matching
hashtag (case-insensitive), +3 per matching keyword (case-insensitive
substring of the content). -/
def calculate_score (post : Post) (config : DiscoveryConfig) (now : Int) : ℚ :=
  let like_score : ℚ := min ((post.likes : ℚ) / 100) 10
  let recency : ℚ :=
    match post.timestamp with
    | some ts =>
      let hours_old : ℚ := ((now - ts : Int) : ℚ) / 3600
      if hours_old < 1 then 5 else if hours_old < 6 then 3 else if hours_old < 24 then 1 else 0
    | none => 0
  let hashtag_score : ℚ :=
    2 * ((post.hashtags.filter
      (fun h => (config.hashtags.map String.toLower).contains h.toLower)).length : ℚ)
  let keyword_score : ℚ :=
    3 * ((config.keywords.filter
      (fun k => strContains post.content.toLower k.toLower)).length : ℚ)
  like_score + recency + hashtag_score + keyword_score

/-- `Discovery._get_reason` (core/discovery.py lines 141-159). -/
def get_reason (post : Post) (config : DiscoveryConfig) (now : Int) : String :=
  let matching := post.hashtags.filter
    (fun h => (config.hashtags.map String.toLower).contains h.toLower)
  let reasons₁ : List String :=
    if post.hashtags ≠ [] ∧ matching ≠ [] then
      ["Matching hashtags: " ++ String.intercalate ", " matching]
    else []
  let reasons₂ : List String :=
    if post.likes > 100 then
      reasons₁ ++ ["Good engagement: " ++ toString post.likes ++ " likes"]
    else reasons₁
  let reasons₃ : List String :=
    match post.timestamp with
    | some ts =>
      if ((now - ts : Int) : ℚ) / 3600 < 6 then reasons₂ ++ ["Recent post"] else reasons₂
    | none => reasons₂
  if reasons₃ ≠ [] then String.intercalate "; " reasons₃ else "Matches criteria"

/-- `Discovery._evaluate_post` (core/discovery.py lines 80-109): the
short-circuiting filter chain (excluded author, excluded hashtag, likes
range) followed by scoring. -/
def evaluate_post (post : Post) (config : DiscoveryConfig) (now : Int) :
    Option DiscoveredPost :=
  if config.exclude_users.contains post.author then none
  else if post.hashtags.any (fun h => config.exclude_hashtags.contains h) then none
  else if (post.likes : Int) < config.min_likes ∨ (post.likes : Int) > config.max_likes then none
  else
    some { post := post
           engagement_score := calculate_score post config now
           reason := get_reason post config now
           filters_passed := [] }

/-- Outcome of one platform's `adapter.search_posts` call as `discover`
sees it: no registered adapter, a raised exception (caught and logged),
or a list of raw posts. -/
inductive SourceResult where
  | noAdapter : SourceResult
  | failure : String → SourceResult
  | posts : List Post → SourceResult

/-- One platform source capability: receives the query (joined keywords
or `None`), the configured hashtags, location and limit, exactly as
`Discovery.discover` passes them. -/
def Sources := Platform → Option String → List String → Option String → Nat → SourceResult

/-- The per-platform collection loop of `Discovery.discover`
(core/discovery.py lines 50-73): platforms without an adapter and
platforms whose source raises contribute nothing, surviving posts are
evaluated in source-encounter order. -/
def discoverCollect (sources : Sources) (config : DiscoveryConfig) (now : Int) :
    List DiscoveredPost :=
  (config.platforms.map (fun platform =>
    let query : Option String :=
      if config.keywords.isEmpty then none
      else some (String.intercalate " " config.keywords)
    match sources platform query config.hashtags config.location config.limit with
    | .noAdapter => []
    | .failure _ => []
    | .posts ps => ps.filterMap (fun p => evaluate_post p config now))).flatten

/-- The comparison under `results.sort(key=lambda x: x.engagement_score,
reverse=True)`: `a` may stay before `b` iff `a`'s score is at least
`b`'s.  Python's `list.sort` is a stable sort, and with `reverse=True`
ties still keep their original relative order, so its behaviour is
that of a stable merge sort under this comparison. -/
def scoreGE (a b : DiscoveredPost) : Bool :=
  decide (b.engagement_score ≤ a.engagement_score)

/-- `Discovery.discover` (core/discovery.py lines 43-78): collect,
stable-sort by descending engagement score, truncate to `config.limit`. -/
def discover (sources : Sources) (config : DiscoveryConfig) (now : Int) :
    List DiscoveredPost :=
  ((discoverCollect sources config now).mergeSort scoreGE).take config.limit

/-! ## Engagement (core/engagement.py) -/

/-- `TargetAudience` dataclass of core/engagement.py; the demographics
dict becomes an association list. -/
structure TargetAudience where
  interests : List String
  demographics : List (String × String)
  pain_points : List String
  desires : List String
deriving Repr

/-- `EngagementConfig` dataclass of core/engagement.py. -/
structure EngagementConfig where
  audience : TargetAudience
  tone : String := "friendly"
  max_daily : Int := 20
  min_delay_seconds : Int := 30
  max_delay_seconds : Int := 120
  skip_already_engaged : Bool := true
deriving Repr

/-- The pluggable completion capability `llm.complete(prompt,
temperature)`: it may raise, which the embedding renders as
`Except.error`. -/
def Completion := String → ℚ → Except String String

/-- `json.dumps` on a string-to-string dict, as used for the audience
demographics in the prompt (escaping inside keys/values is not
modelled; no claim depends on the prompt text). -/
def jsonDumpsDict (pairs : List (String × String)) : String :=
  "\x7b" ++ String.intercalate ", "
    (pairs.map (fun kv => "\x22" ++ kv.1 ++ "\x22: \x22" ++ kv.2 ++ "\x22")) ++ "\x7d"

/-- `Engagement._build_comment_prompt` (core/engagement.py lines 67-103). -/
def build_comment_prompt (post : Post) (config : EngagementConfig) : String :=
  let audience_info :=
    "\nTarget Audience:\n- Interests: " ++ String.intercalate ", " config.audience.interests ++
    "\n- Demographics: " ++ jsonDumpsDict config.audience.demographics ++
    "\n- Pain points: " ++ String.intercalate ", " config.audience.pain_points ++
    "\n- Desires: " ++ String.intercalate ", " config.audience.desires ++ "\n"
  let post_info :=
    "\nPost Details:\n- Author: " ++ post.author ++
    "\n- Content: " ++ post.content ++
    "\n- Hashtags: " ++
      (if post.hashtags ≠ [] then String.intercalate ", " post.hashtags else "None") ++
    "\n- Likes: " ++ toString post.likes ++ "\n"
  "You are a social media engagement specialist. Generate 3-5 genuine, contextual comments for the following Instagram post.\n\n"
    ++ audience_info ++ "\n\n" ++ post_info ++ "\n\n" ++
    "Requirements:\n- Tone: " ++ config.tone ++
    "\n- Length: 1-3 sentences max\n- Genuine and conversational\n- NO generic spam like \x22great post!\x22, \x22🔥🔥🔥\x22, \x22nicee\x22\n- Ask questions to start conversation\n- Show you actually read/understood the post\n\nReturn ONLY a JSON array of strings, nothing else. Example:\n[\x22Comment 1\x22, \x22Comment 2\x22, \x22Comment 3\x22]\n"

/-- The greedy regex search `re.search(r'\x5b.*\x5d', response,
re.DOTALL)` of `_parse_comments`: the leftmost match runs from the
first `[` of the response to the last `]`, and exists iff some `]`
follows the first `[`. -/
def findJsonSpan (s : String) : Option String :=
  let cs := s.toList
  match cs.findIdx? (fun c => c == '[') with
  | none => none
  | some i =>
    match cs.reverse.findIdx? (fun c => c == ']') with
    | none => none
    | some rj =>
      let j := cs.length - 1 - rj
      if i < j then some (String.mk ((cs.drop i).take (j - i + 1))) else none

/-- Leading JSON whitespace removed. -/
def skipWs : List Char → List Char
  | c :: rest =>
    if c == ' ' ∨ c == '\n' ∨ c == '\t' ∨ c == '\r' then skipWs rest else c :: rest
  | [] => []

/-- One JSON string body (after the opening quote): returns the decoded
content and the remainder after the closing quote.  The common escapes
are decoded; anything else fails like `json.loads` would raise
(`\uXXXX` escapes are not modelled; no claim exercises them). -/
def parseJsonStringBody : List Char → Option (List Char × List Char)
  | [] => none
  | c :: rest =>
    if c == '"' then some ([], rest)
    else if c == '\\' then
      match rest with
      | [] => none
      | e :: rest2 =>
        let dec? : Option Char :=
          if e == '"' then some '"'
          else if e == '\\' then some '\\'
          else if e == '/' then some '/'
          else if e == 'n' then some '\n'
          else if e == 't' then some '\t'
          else if e == 'r' then some '\r'
          else if e == 'b' then some (Char.ofNat 8)
          else if e == 'f' then some (Char.ofNat 12)
          else none
        match dec? with
        | none => none
        | some d => (parseJsonStringBody rest2).map (fun p => (d :: p.1, p.2))
    else (parseJsonStringBody rest).map (fun p => (c :: p.1, p.2))

/-- Elements of a JSON array of strings, after the opening `[` (the
empty-array case is handled by the caller).  Fuel-driven; the caller
passes the character count, which bounds the element count. -/
def parseJsonElems : Nat → List Char → List String → Option (List String)
  | 0, _, _ => none
  | fuel + 1, cs, acc =>
    match skipWs cs with
    | '"' :: rest =>
      match parseJsonStringBody rest with
      | none => none
      | some (content, rem) =>
        match skipWs rem with
        | ',' :: rest2 => parseJsonElems fuel rest2 (acc ++ [String.mk content])
        | ']' :: rest2 =>
          if (skipWs rest2).isEmpty then some (acc ++ [String.mk content]) else none
        | _ => none
    | _ => none

/-- `json.loads` restricted to JSON arrays of string literals, the shape
`_parse_comments` asks for.  `none` plays the raised `JSONDecodeError`
(a span that is valid JSON but holds non-string elements is also mapped
to `none`; no claim exercises that case).  A value parsed from a span
that starts with `[` and ends with `]` is always a list, so the
`isinstance(comments, list)` test never fails on a parsed value. -/
def jsonArrayOfStrings (s : String) : Option (List String) :=
  let cs := s.toList
  match skipWs cs with
  | '[' :: rest =>
    match skipWs rest with
    | ']' :: rest2 => if (skipWs rest2).isEmpty then some [] else none
    | _ => parseJsonElems cs.length rest []
  | _ => none

/-- `Engagement._parse_comments` (core/engagement.py lines 105-121):
extract a JSON array if one matches (a `json.loads` failure is caught
by the bare `except` and yields `[]`); otherwise split on newlines,
strip, drop blank lines and keep lines longer than 10 characters. -/
def parse_comments (response : String) : List String :=
  match findJsonSpan response with
  | some span =>
    match jsonArrayOfStrings span with
    | some comments => comments
    | none => []
  | none =>
    let lines := ((response.splitOn "\n").map String.trim).filter (fun l => l ≠ "")
    lines.filter (fun l => l.length > 10)

/-- The fixed template pool of `_generate_template_comments`
(core/engagement.py lines 130-139); `\x7binterest\x7d` is the
`str.format` placeholder. -/
def comment_templates : List String :=
  [ "This is exactly what I\x27ve been looking for! 👏",
    "Love this! What made you get into \x7binterest\x7d?",
    "This is inspiring! Any tips for beginners?",
    "Where is this? Looks amazing! 🧗",
    "This is goals! 🔥 How long have you been doing this?",
    "Just started getting into \x7binterest\x7d - this gives me motivation!",
    "The community around here is so supportive 💪",
    "Absolutely incredible shot! What camera/filter did you use?" ]

/-- `Engagement._generate_template_comments` (core/engagement.py lines
123-149): personalize with the first hashtag (or the literal "this"),
truncate to at most 5 entries.  This path never fails. -/
def generate_template_comments (post : Post) (_config : EngagementConfig) : List String :=
  let interest := post.hashtags.headD "this"
  let comments := comment_templates.map
    (fun template => template.replace "\x7binterest\x7d" interest)
  comments.take 5

/-- `Engagement.generate_comment` (core/engagement.py lines 41-65): with
no completion capability use the templates; otherwise call it with the
built prompt at temperature 0.8 and parse, falling back to the
templates when the call raises. -/
def generate_comment (llm : Option Completion) (post : Post) (config : EngagementConfig) :
    List String :=
  match llm with
  | none => generate_template_comments post config
  | some complete =>
    let prompt := build_comment_prompt post config
    match complete prompt (8 / 10 : ℚ) with
    | .ok response => parse_comments response
    | .error _ => generate_template_comments post config

/-! ### The engage loop

`Engagement.engage` (core/engagement.py lines 151-195) is embedded as a
recursion over the post list that records, besides the returned outcome
list, the sleeps performed, the posts whose loop iteration ran, and the
callback invocations — the observable events the claims speak about.
The adapter's `comment` capability is a function from post id and
comment text to `Except String EngagementResult`, so that a raising
adapter can be expressed; `random.randint` becomes an oracle
`rand : Nat → Int → Int → Int` applied to the iteration index and the
configured bounds (Python raises `ValueError` when the lower bound
exceeds the upper, which the embedding renders as an aborting
exception before any sleep). -/

/-- The adapter's `comment` action capability. -/
def CommentAction := String → String → Except String EngagementResult

/-- Events accumulated by one `engage` call: sleeps taken, posts whose
iteration ran, outcomes appended to the result list, callback
invocations. -/
structure EngageTrace where
  delays : List Int := []
  processed : List Post := []
  results : List EngagementResult := []
  callbacks : List (Post × EngagementResult) := []
deriving Repr

/-- What an `engage` call produces: its event trace and, when an
exception escaped the loop (a raising adapter or `random.randint` on an
empty range), that exception — in which case the Python caller never
receives the result list. -/
structure EngageOutput where
  trace : EngageTrace
  exc : Option String := none
deriving Repr

/-- The loop body of `Engagement.engage`, from iteration index `i`:
break once `i ≥ max_daily`; sleep a sampled delay; generate comments
and skip the post when none; otherwise post the first comment through
the adapter, append the outcome and invoke the callback. -/
def engageGo (ad : CommentAction) (llm : Option Completion)
    (rand : Nat → Int → Int → Int) (config : EngagementConfig) :
    List Post → Nat → EngageOutput
  | [], _ => { trace := {} }
  | post :: rest, i =>
    if (i : Int) ≥ config.max_daily then { trace := {} }
    else if config.max_delay_seconds < config.min_delay_seconds then
      { trace := {}, exc := some "ValueError: empty range for randrange()" }
    else
      let delay := rand i config.min_delay_seconds config.max_delay_seconds
      match generate_comment llm post config with
      | [] =>
        let out := engageGo ad llm rand config rest (i + 1)
        { trace := { delays := delay :: out.trace.delays
                     processed := post :: out.trace.processed
                     results := out.trace.results
                     callbacks := out.trace.callbacks }
          exc := out.exc }
      | comment :: _ =>
        match ad post.post_id comment with
        | .error e =>
          { trace := { delays := [delay], processed := [post] }, exc := some e }
        | .ok result =>
          let out := engageGo ad llm rand config rest (i + 1)
          { trace := { delays := delay :: out.trace.delays
                       processed := post :: out.trace.processed
                       results := result :: out.trace.results
                       callbacks := (post, result) :: out.trace.callbacks }
            exc := out.exc }

/-- `Engagement.engage`: run the loop from index 0. -/
def engage (ad : CommentAction) (llm : Option Completion)
    (rand : Nat → Int → Int → Int) (config : EngagementConfig)
    (posts : List Post) : EngageOutput :=
  engageGo ad llm rand config posts 0

/-! ## Analytics (core/analytics.py)

The two SQLite tables become lists of rows; `datetime.now()`'s calendar
date, used to key `daily_stats`, becomes an explicit `date` argument of
`record`. -/

/-- One row of the `engagements` table. -/
structure EngRow where
  platform : String
  action : String
  post_id : String
  post_author : String
  comment : String
  success : Bool
  error : String
deriving DecidableEq, Repr

/-- One row of the `daily_stats` table (`date` is its primary key). -/
structure DailyStats where
  date : String
  comments_posted : Nat := 0
  likes_posted : Nat := 0
  follows_posted : Nat := 0
  success_count : Nat := 0
  failure_count : Nat := 0
deriving DecidableEq, Repr

/-- The database behind `Analytics`. -/
structure AnalyticsDB where
  engagements : List EngRow := []
  daily_stats : List DailyStats := []
deriving Repr

/-- `{action_col} = {action_col} + 1` of the upsert: bump the named
counter column. -/
def bumpCol (row : DailyStats) (actionCol : String) : DailyStats :=
  if actionCol == "comments_posted" then { row with comments_posted := row.comments_posted + 1 }
  else if actionCol == "likes_posted" then { row with likes_posted := row.likes_posted + 1 }
  else if actionCol == "follows_posted" then { row with follows_posted := row.follows_posted + 1 }
  else row

/-- The `INSERT ... ON CONFLICT(date) DO UPDATE` upsert of
`Analytics.record` on the `daily_stats` table: update the (unique,
`date` being the primary key) matching row if present, else insert a
fresh row whose named action column starts at 1. -/
def dailyUpsert : List DailyStats → String → String → Bool → List DailyStats
  | [], date, actionCol, success =>
    [bumpCol { date := date
               success_count := if success then 1 else 0
               failure_count := if success then 0 else 1 } actionCol]
  | row :: rest, date, actionCol, success =>
    if row.date == date then
      bumpCol { row with
                success_count := row.success_count + (if success then 1 else 0)
                failure_count := row.failure_count + (if success then 0 else 1) } actionCol
        :: rest
    else row :: dailyUpsert rest date actionCol success

/-- `Analytics.record` (core/analytics.py lines 73-111): append the
engagement row, then update the daily aggregate for `date` when the
action's column name is one of the three known counters. -/
def record (db : AnalyticsDB) (result : EngagementResult)
    (post_author : String) (comment : String) (date : String) : AnalyticsDB :=
  let row : EngRow :=
    { platform := result.platform.value
      action := result.action
      post_id := result.post_id
      post_author := post_author
      comment := comment
      success := result.success
      error := result.error.getD "" }
  let actionCol := result.action ++ "s_posted"
  { engagements := db.engagements ++ [row]
    daily_stats :=
      if actionCol == "comments_posted" ∨ actionCol == "likes_posted" ∨
          actionCol == "follows_posted" then
        dailyUpsert db.daily_stats date actionCol result.success
      else db.daily_stats }

/-- `Analytics.is_engaged` (core/analytics.py lines 206-219):
`COUNT(*) > 0` over rows with the given post id and action `'comment'`,
regardless of the rows' success flag. -/
def is_engaged (db : AnalyticsDB) (post_id : String) : Bool :=
  0 < (db.engagements.filter
    (fun r => r.post_id == post_id && r.action == "comment")).length

/-- `Analytics.get_daily_stats` (core/analytics.py lines 113-137): the
daily rows ordered by date descending, at most `days` of them. -/
def get_daily_stats (db : AnalyticsDB) (days : Nat) : List DailyStats :=
  (db.daily_stats.mergeSort (fun a b => decide (b.date ≤ a.date))).take days

/-! ## Engine (core/engine.py) -/

/-- `SocialEngagementEngine._on_engagement` (core/engine.py lines
107-113): forward the outcome to `Analytics.record` with the post's
author and the posted message. -/
def on_engagement (db : AnalyticsDB) (post : Post) (result : EngagementResult)
    (date : String) : AnalyticsDB :=
  record db result post.author (result.message.getD "") date

/-- Phase 2 of `SocialEngagementEngine.discover_and_engage`
(core/engine.py lines 76-83): when `skip_already_engaged` is set, drop
every discovered candidate whose post id the ledger reports as already
engaged. -/
def filterEngaged (db : AnalyticsDB) (skip : Bool) (discovered : List DiscoveredPost) :
    List DiscoveredPost :=
  if skip then discovered.filter (fun d => !is_engaged db d.post.post_id)
  else discovered

/-- The per-platform post list handed to `Engagement.engage` in phase 3
of `discover_and_engage` (core/engine.py line 91). -/
def postsToEngage (db : AnalyticsDB) (ecfg : EngagementConfig)
    (discovered : List DiscoveredPost) (platform : Platform) : List Post :=
  ((filterEngaged db ecfg.skip_already_engaged discovered).filter
    (fun d => d.post.platform == platform)).map (fun d => d.post)

/-! ## Spec-side abbreviations and concrete fixtures -/

/-- The per-action counters of a daily row, summed (the spec's
"per-action counts"). -/
def actionTotal (row : DailyStats) : Nat :=
  row.comments_posted + row.likes_posted + row.follows_posted

/-- The success/failure counters of a daily row, summed. -/
def outcomeTotal (row : DailyStats) : Nat :=
  row.success_count + row.failure_count

/-- The daily row for a date (the `SELECT` by the `date` primary key). -/
def dailyFind (db : AnalyticsDB) (date : String) : Option DailyStats :=
  db.daily_stats.find? (fun row => row.date == date)

/-- The outcome the adapter returns for a post's attempt, under an
adapter that never raises (the `Except.error` branch is unreachable
then; it returns a placeholder). -/
def attemptOutcome (ad : CommentAction) (llm : Option Completion)
    (config : EngagementConfig) (p : Post) : EngagementResult :=
  match ad p.post_id ((generate_comment llm p config).headD "") with
  | .ok r => r
  | .error _ =>
    { success := false, platform := p.platform, action := "comment", post_id := p.post_id }

/-- Concrete audience for witnesses. -/
def exAudience : TargetAudience :=
  { interests := ["rock climbing"]
    demographics := [("age", "18-35")]
    pain_points := ["plateauing"]
    desires := ["progress"] }

/-- Concrete engagement configuration for witnesses: cap 2, zero delays. -/
def exConfig : EngagementConfig :=
  { audience := exAudience
    max_daily := 2
    min_delay_seconds := 0
    max_delay_seconds := 0 }

/-- Concrete post for witnesses. -/
def exPost (pid : String) : Post :=
  { platform := .instagram
    post_id := pid
    url := ""
    author := "alice"
    author_id := "a1"
    content := "great climb"
    hashtags := ["#climbing"] }

/-- Adapter whose `comment` always succeeds. -/
def okAd : CommentAction := fun pid comment =>
  .ok { success := true, platform := .instagram, action := "comment",
        post_id := pid, message := some comment }

/-- Adapter whose `comment` reports failure in the returned outcome
(never raises), as the adapter interface contracts. -/
def failAd : CommentAction := fun pid _ =>
  .ok { success := false, platform := .instagram, action := "comment",
        post_id := pid, error := some "err" }

/-- Adapter whose `comment` raises. -/
def raiseAd : CommentAction := fun _ _ => .error "boom"

/-- A `random.randint` oracle that always answers the lower bound. -/
def randLo : Nat → Int → Int → Int := fun _ a _ => a

/-- A completion capability that always raises. -/
def raisingLLM : Completion := fun _ _ => .error "rate limited"

/-- Concrete successful comment outcome. -/
def exResult : EngagementResult :=
  { success := true, platform := .instagram, action := "comment",
    post_id := "p1", message := some "hi" }

/-- Concrete failed comment outcome. -/
def exFailResult : EngagementResult :=
  { success := false, platform := .instagram, action := "comment",
    post_id := "p1", error := some "err" }

/-! ## Claim theorems -/

/-- **C6.** The engagement score of `Discovery._calculate_score` is a
deterministic pure function of the post, the discovery configuration
and the evaluation time; it is non-negative; and it is monotonically
non-decreasing in the post's like count with all other inputs fixed. -/
theorem score_deterministic_nonneg_monotone
    (post : Post) (config : DiscoveryConfig) (now : Int) :
    (∀ post2 config2 now2, post = post2 → config = config2 → now = now2 →
      calculate_score post config now = calculate_score post2 config2 now2) ∧
    0 ≤ calculate_score post config now ∧
    (∀ m n : Nat, m ≤ n →
      calculate_score { post with likes := m } config now ≤
        calculate_score { post with likes := n } config now) := by
  refine ⟨fun p2 c2 n2 hp hc hn => by rw [hp, hc, hn], ?_, ?_⟩
  · simp only [calculate_score]
    have h1 : (0 : ℚ) ≤ min ((post.likes : ℚ) / 100) 10 :=
      le_min (by positivity) (by norm_num)
    have h2 : (0 : ℚ) ≤
        (match post.timestamp with
          | some ts =>
            let hours_old : ℚ := ((now - ts : Int) : ℚ) / 3600
            if hours_old < 1 then 5 else if hours_old < 6 then 3
            else if hours_old < 24 then 1 else 0
          | none => 0) := by
      cases post.timestamp with
      | none => norm_num
      | some ts =>
        simp only []
        split_ifs <;> norm_num
    have h3 : (0 : ℚ) ≤ 2 * ((post.hashtags.filter
        (fun h => (config.hashtags.map String.toLower).contains h.toLower)).length : ℚ) := by
      positivity
    have h4 : (0 : ℚ) ≤ 3 * ((config.keywords.filter
        (fun k => strContains post.content.toLower k.toLower)).length : ℚ) := by
      positivity
    exact add_nonneg (add_nonneg (add_nonneg h1 h2) h3) h4
  · intro m n hmn
    simp only [calculate_score]
    have hc : (m : ℚ) ≤ (n : ℚ) := by exact_mod_cast hmn
    gcongr

/-- **C10.** `discover` never consults `posts_age_hours`: two
configurations identical except for that field produce identical
discovery output on every source collection. -/
theorem discover_ignores_posts_age_hours (sources : Sources) (config : DiscoveryConfig)
    (x : Int) (now : Int) :
    discover sources { config with posts_age_hours := x } now =
      discover sources config now := by
  cases config
  rfl

/-- `scoreGE` is transitive. -/
lemma scoreGE_trans : ∀ a b c : DiscoveredPost, scoreGE a b → scoreGE b c → scoreGE a c := by
  intro a b c hab hbc
  simp only [scoreGE, decide_eq_true_eq] at *
  exact le_trans hbc hab

/-- `scoreGE` is total. -/
lemma scoreGE_total : ∀ a b : DiscoveredPost, scoreGE a b || scoreGE b a := by
  intro a b
  simp only [scoreGE, Bool.or_eq_true, decide_eq_true_eq]
  exact le_total _ _

/-- The stable sort leaves the relative order of any equal-score class
untouched: filtering the sorted list to one score value gives exactly
the same list as filtering the unsorted input. -/
lemma mergeSort_scoreGE_filter_eq (l : List DiscoveredPost) (q : ℚ) :
    (l.mergeSort scoreGE).filter (fun d => d.engagement_score == q) =
      l.filter (fun d => d.engagement_score == q) := by
  set p : DiscoveredPost → Bool := fun d => d.engagement_score == q with hp
  have hmemq : ∀ d ∈ l.filter p, d.engagement_score = q := by
    intro d hd
    have h2 := (List.mem_filter.mp hd).2
    simpa [hp] using h2
  have hpair : (l.filter p).Pairwise (scoreGE · ·) :=
    List.pairwise_of_forall_mem_list (by
      intro a ha b hb
      simp [scoreGE, hmemq a ha, hmemq b hb])
  have hsub : List.Sublist (l.filter p) (l.mergeSort scoreGE) :=
    List.sublist_mergeSort scoreGE_trans scoreGE_total hpair (List.filter_sublist l)
  have hsub2 : List.Sublist ((l.filter p).filter p) ((l.mergeSort scoreGE).filter p) :=
    hsub.filter p
  rw [List.filter_filter] at hsub2
  have hsub3 : List.Sublist (l.filter p) ((l.mergeSort scoreGE).filter p) := by
    simpa using hsub2
  have hperm : List.Perm ((l.mergeSort scoreGE).filter p) (l.filter p) :=
    (List.mergeSort_perm l scoreGE).filter p
  exact (hsub3.eq_of_length hperm.length_eq.symm).symm

/-- **C5.** `discover` output is sorted by descending engagement score,
is at most `config.limit` long, and the sort is stable: within any
equal-score class the output preserves the source-encounter order of
the collected candidates (it is a sublist of the collected list
restricted to that score). -/
theorem discover_sorted_stable_truncated (sources : Sources) (config : DiscoveryConfig)
    (now : Int) :
    List.Pairwise (fun a b => b.engagement_score ≤ a.engagement_score)
        (discover sources config now) ∧
    (discover sources config now).length ≤ config.limit ∧
    (∀ q : ℚ,
      List.Sublist
        ((discover sources config now).filter (fun d => d.engagement_score == q))
        ((discoverCollect sources config now).filter (fun d => d.engagement_score == q))) := by
  refine ⟨?_, ?_, ?_⟩
  · have hs : ((discoverCollect sources config now).mergeSort scoreGE).Pairwise (scoreGE · ·) :=
      List.sorted_mergeSort scoreGE_trans scoreGE_total _
    have htake := List.take_sublist config.limit
      ((discoverCollect sources config now).mergeSort scoreGE)
    have hp : (discover sources config now).Pairwise (scoreGE · ·) := hs.sublist htake
    exact hp.imp (by intro a b h; simpa [scoreGE] using h)
  · exact List.length_take_le _ _
  · intro q
    have htake := List.take_sublist config.limit
      ((discoverCollect sources config now).mergeSort scoreGE)
    have h1 : List.Sublist
        ((discover sources config now).filter (fun d => d.engagement_score == q))
        (((discoverCollect sources config now).mergeSort scoreGE).filter
          (fun d => d.engagement_score == q)) := htake.filter _
    rw [mergeSort_scoreGE_filter_eq] at h1
    exact h1

/-- Recording a comment-action outcome makes `is_engaged` answer true
for its post id, whatever the success flag. -/
lemma is_engaged_record_comment (db : AnalyticsDB) (r : EngagementResult)
    (a c d : String) (hact : r.action = "comment") :
    is_engaged (record db r a c d) r.post_id = true := by
  have hrow : (List.filter (fun w => w.post_id == r.post_id && w.action == "comment")
      ([{ platform := r.platform.value, action := r.action, post_id := r.post_id,
          post_author := a, comment := c, success := r.success,
          error := r.error.getD "" }] : List EngRow)).length = 1 := by
    simp [hact]
  simp only [is_engaged, record, List.filter_append, List.length_append,
    decide_eq_true_eq, hrow]
  omega

/-- `record` never turns `is_engaged` off: the engagement table only
grows. -/
lemma is_engaged_record_mono (db : AnalyticsDB) (r : EngagementResult)
    (a c d : String) (pid : String) (h : is_engaged db pid = true) :
    is_engaged (record db r a c d) pid = true := by
  simp only [is_engaged, record, List.filter_append, List.length_append,
    decide_eq_true_eq] at *
  omega

/-- `is_engaged` stays true across any later sequence of `record`
calls. -/
lemma is_engaged_foldl_mono (later : List (EngagementResult × String × String × String))
    (db : AnalyticsDB) (pid : String) (h : is_engaged db pid = true) :
    is_engaged (later.foldl
      (fun acc x => record acc x.1 x.2.1 x.2.2.1 x.2.2.2) db) pid = true := by
  induction later generalizing db with
  | nil => exact h
  | cons x xs ih => exact ih _ (is_engaged_record_mono _ _ _ _ _ _ h)

/-- Under `skip_already_engaged`, a post id the ledger reports engaged
never reaches the per-platform list handed to the Pacer/Executor. -/
lemma postsToEngage_excludes (db : AnalyticsDB) (ecfg : EngagementConfig)
    (discovered : List DiscoveredPost) (platform : Platform) (pid : String)
    (hskip : ecfg.skip_already_engaged = true) (h : is_engaged db pid = true) :
    ∀ p ∈ postsToEngage db ecfg discovered platform, p.post_id ≠ pid := by
  intro p hp hpe
  simp only [postsToEngage, filterEngaged, hskip, if_true, List.mem_map,
    List.mem_filter] at hp
  obtain ⟨d, ⟨⟨_, hd2⟩, _⟩, rfl⟩ := hp
  rw [hpe, h] at hd2
  simp at hd2

/-- **C2.** Once `record` has stored a successful comment outcome for a
post id, `is_engaged` answers true — immediately and after any later
`record` calls — and a later `discover_and_engage` with
`skip_already_engaged` never passes that post id to the
Pacer/Executor. -/
theorem dedup_idempotence (db : AnalyticsDB) (r : EngagementResult)
    (a c d : String) (later : List (EngagementResult × String × String × String))
    (hact : r.action = "comment") (_hsucc : r.success = true) :
    is_engaged (record db r a c d) r.post_id = true ∧
    is_engaged (later.foldl (fun acc x => record acc x.1 x.2.1 x.2.2.1 x.2.2.2)
      (record db r a c d)) r.post_id = true ∧
    ∀ (ecfg : EngagementConfig) (discovered : List DiscoveredPost) (platform : Platform),
      ecfg.skip_already_engaged = true →
      ∀ p ∈ postsToEngage
          (later.foldl (fun acc x => record acc x.1 x.2.1 x.2.2.1 x.2.2.2)
            (record db r a c d)) ecfg discovered platform,
        p.post_id ≠ r.post_id := by
  have h1 := is_engaged_record_comment db r a c d hact
  have h2 := is_engaged_foldl_mono later _ _ h1
  exact ⟨h1, h2, fun ecfg discovered platform hskip =>
    postsToEngage_excludes _ ecfg discovered platform _ hskip h2⟩

/-- Witness for C2 at a concrete database, outcome and configuration. -/
theorem dedup_idempotence_witness :
    is_engaged (record {} exResult "alice" "hi" "2026-10-12") exResult.post_id = true ∧
    is_engaged (([] : List (EngagementResult × String × String × String)).foldl
      (fun acc x => record acc x.1 x.2.1 x.2.2.1 x.2.2.2)
      (record {} exResult "alice" "hi" "2026-10-12")) exResult.post_id = true ∧
    ∀ (ecfg : EngagementConfig) (discovered : List DiscoveredPost) (platform : Platform),
      ecfg.skip_already_engaged = true →
      ∀ p ∈ postsToEngage
          (([] : List (EngagementResult × String × String × String)).foldl
            (fun acc x => record acc x.1 x.2.1 x.2.2.1 x.2.2.2)
            (record {} exResult "alice" "hi" "2026-10-12")) ecfg discovered platform,
        p.post_id ≠ exResult.post_id :=
  dedup_idempotence {} exResult "alice" "hi" "2026-10-12" [] rfl rfl

/-- **C9.** After the orchestrator's callback records a FAILED comment
outcome for a post id, `is_engaged` answers true, so under
`skip_already_engaged` that post id is excluded from the engagement
phase even though no comment was ever successfully posted: the dedup
oracle counts comment records regardless of their success flag. -/
theorem failed_comment_blocks (db : AnalyticsDB) (post : Post) (r : EngagementResult)
    (d : String) (hact : r.action = "comment") (_hfail : r.success = false) :
    is_engaged (on_engagement db post r d) r.post_id = true ∧
    ∀ (ecfg : EngagementConfig) (discovered : List DiscoveredPost) (platform : Platform),
      ecfg.skip_already_engaged = true →
      ∀ p ∈ postsToEngage (on_engagement db post r d) ecfg discovered platform,
        p.post_id ≠ r.post_id := by
  have h1 : is_engaged (on_engagement db post r d) r.post_id = true :=
    is_engaged_record_comment db r post.author (r.message.getD "") d hact
  exact ⟨h1, fun ecfg discovered platform hskip =>
    postsToEngage_excludes _ ecfg discovered platform _ hskip h1⟩

/-- Witness for C9 at a concrete database and failed outcome. -/
theorem failed_comment_blocks_witness :
    is_engaged (on_engagement {} (exPost "p1") exFailResult "2026-10-12")
      exFailResult.post_id = true ∧
    ∀ (ecfg : EngagementConfig) (discovered : List DiscoveredPost) (platform : Platform),
      ecfg.skip_already_engaged = true →
      ∀ p ∈ postsToEngage (on_engagement {} (exPost "p1") exFailResult "2026-10-12")
          ecfg discovered platform,
        p.post_id ≠ exFailResult.post_id :=
  failed_comment_blocks {} (exPost "p1") exFailResult "2026-10-12" rfl rfl

/-- `bumpCol` never changes the row's date. -/
lemma bumpCol_date (row : DailyStats) (actionCol : String) :
    (bumpCol row actionCol).date = row.date := by
  simp only [bumpCol]
  split_ifs <;> rfl

/-- Bumping one of the three action columns raises the action total by
exactly one. -/
lemma actionTotal_bumpCol (row : DailyStats) (actionCol : String)
    (h : actionCol = "comments_posted" ∨ actionCol = "likes_posted" ∨
      actionCol = "follows_posted") :
    actionTotal (bumpCol row actionCol) = actionTotal row + 1 := by
  rcases h with h | h | h <;> subst h <;> simp [bumpCol, actionTotal] <;> omega

/-- `bumpCol` leaves the success/failure counters alone. -/
lemma outcomeTotal_bumpCol (row : DailyStats) (actionCol : String) :
    outcomeTotal (bumpCol row actionCol) = outcomeTotal row := by
  simp only [bumpCol, outcomeTotal]
  split_ifs <;> rfl

/-- Where the upsert leaves the row for the upserted date: the fresh
row when none existed, the counter-incremented row otherwise. -/
lemma dailyUpsert_find (stats : List DailyStats) (date actionCol : String)
    (success : Bool) :
    (dailyUpsert stats date actionCol success).find? (fun row => row.date == date) =
      some (match stats.find? (fun row => row.date == date) with
        | none => bumpCol { date := date
                            success_count := if success then 1 else 0
                            failure_count := if success then 0 else 1 } actionCol
        | some row => bumpCol { row with
              success_count := row.success_count + (if success then 1 else 0)
              failure_count := row.failure_count + (if success then 0 else 1) } actionCol) := by
  induction stats with
  | nil =>
    simp [dailyUpsert, List.find?, bumpCol_date]
  | cons row rest ih =>
    by_cases h : row.date == date
    · simp [dailyUpsert, h, List.find?, bumpCol_date]
    · simp only [dailyUpsert, h, if_neg, Bool.false_eq_true, ite_false]
      rw [List.find?_cons_of_neg _ (by simp_all), List.find?_cons_of_neg _ (by simp_all)]
      exact ih

/-- One `record` call with a fresh date creates the daily row with both
totals 1. -/
lemma record_daily_fresh (db : AnalyticsDB) (r : EngagementResult)
    (a c date : String)
    (hact : r.action = "comment" ∨ r.action = "like" ∨ r.action = "follow")
    (hfresh : dailyFind db date = none) :
    ∃ row, dailyFind (record db r a c date) date = some row ∧
      actionTotal row = 1 ∧ outcomeTotal row = 1 := by
  have hcol : r.action ++ "s_posted" = "comments_posted" ∨
      r.action ++ "s_posted" = "likes_posted" ∨
      r.action ++ "s_posted" = "follows_posted" := by
    rcases hact with h | h | h <;> rw [h] <;> simp
  have hfind : dailyFind (record db r a c date) date =
      some (bumpCol { date := date
                      success_count := if r.success then 1 else 0
                      failure_count := if r.success then 0 else 1 }
        (r.action ++ "s_posted")) := by
    simp only [dailyFind, record]
    rw [if_pos (by rcases hcol with h | h | h <;> simp [h])]
    rw [dailyUpsert_find]
    rw [show db.daily_stats.find? (fun row => row.date == date) = none from hfresh]
  refine ⟨_, hfind, ?_, ?_⟩
  · rw [actionTotal_bumpCol _ _ hcol]
    simp [actionTotal]
  · rw [outcomeTotal_bumpCol]
    simp only [outcomeTotal]
    cases r.success <;> simp

/-- One `record` call on an existing daily row raises both totals by
exactly one. -/
lemma record_daily_step (db : AnalyticsDB) (r : EngagementResult)
    (a c date : String) (w : DailyStats)
    (hact : r.action = "comment" ∨ r.action = "like" ∨ r.action = "follow")
    (hw : dailyFind db date = some w) :
    ∃ row, dailyFind (record db r a c date) date = some row ∧
      actionTotal row = actionTotal w + 1 ∧ outcomeTotal row = outcomeTotal w + 1 := by
  have hcol : r.action ++ "s_posted" = "comments_posted" ∨
      r.action ++ "s_posted" = "likes_posted" ∨
      r.action ++ "s_posted" = "follows_posted" := by
    rcases hact with h | h | h <;> rw [h] <;> simp
  have hfind : dailyFind (record db r a c date) date =
      some (bumpCol { w with
              success_count := w.success_count + (if r.success then 1 else 0)
              failure_count := w.failure_count + (if r.success then 0 else 1) }
        (r.action ++ "s_posted")) := by
    simp only [dailyFind, record]
    rw [if_pos (by rcases hcol with h | h | h <;> simp [h])]
    rw [dailyUpsert_find]
    rw [show db.daily_stats.find? (fun row => row.date == date) = some w from hw]
  refine ⟨_, hfind, ?_, ?_⟩
  · rw [actionTotal_bumpCol _ _ hcol]
    simp [actionTotal]
  · rw [outcomeTotal_bumpCol]
    simp only [outcomeTotal]
    cases r.success <;> simp <;> omega

/-- Folding `record` over a list of outcomes advances both totals of an
existing daily row by the list length. -/
lemma foldl_record_daily (d : String) (rs : List EngagementResult) :
    ∀ (db : AnalyticsDB) (w : DailyStats),
      (∀ r ∈ rs, r.action = "comment" ∨ r.action = "like" ∨ r.action = "follow") →
      dailyFind db d = some w →
      ∃ row, dailyFind (rs.foldl (fun acc r => record acc r "" "" d) db) d = some row ∧
        actionTotal row = actionTotal w + rs.length ∧
        outcomeTotal row = outcomeTotal w + rs.length := by
  induction rs with
  | nil =>
    intro db w _ hw
    exact ⟨w, hw, by simp, by simp⟩
  | cons r rest ih =>
    intro db w hacts hw
    obtain ⟨row1, h1, ha1, ho1⟩ :=
      record_daily_step db r "" "" d w (hacts r (List.mem_cons_self _ _)) hw
    obtain ⟨row, h2, ha2, ho2⟩ :=
      ih (record db r "" "" d) row1 (fun r2 hr2 => hacts r2 (List.mem_cons_of_mem _ hr2)) h1
    exact ⟨row, by simpa using h2, by simp [ha2, ha1]; omega, by simp [ho2, ho1]; omega⟩

/-- **C7.** After N `record` calls with mixed success/failure outcomes
whose actions are comment, like or follow, all on one calendar date
that had no prior daily row, the daily row for that date reports
`success_count + failure_count = N` and per-action counters summing to
N: each call increments the aggregates exactly once. -/
theorem aggregate_consistency (db : AnalyticsDB) (rs : List EngagementResult) (d : String)
    (hacts : ∀ r ∈ rs, r.action = "comment" ∨ r.action = "like" ∨ r.action = "follow")
    (hfresh : dailyFind db d = none) (hne : rs ≠ []) :
    ∃ row, dailyFind (rs.foldl (fun acc r => record acc r "" "" d) db) d = some row ∧
      outcomeTotal row = rs.length ∧ actionTotal row = rs.length := by
  rcases rs with _ | ⟨r0, rest⟩
  · exact absurd rfl hne
  · obtain ⟨row0, h0, ha0, ho0⟩ :=
      record_daily_fresh db r0 "" "" d (hacts r0 (List.mem_cons_self _ _)) hfresh
    obtain ⟨row, h, ha, ho⟩ := foldl_record_daily d rest (record db r0 "" "" d) row0
      (fun r2 hr2 => hacts r2 (List.mem_cons_of_mem _ hr2)) h0
    refine ⟨row, by simpa using h, ?_, ?_⟩
    · simp only [ho, ho0, List.length_cons]
      omega
    · simp only [ha, ha0, List.length_cons]
      omega

/-- Witness for C7: two outcomes (one success, one failure) recorded on
one date give a row with both totals 2. -/
theorem aggregate_consistency_witness :
    ∃ row, dailyFind ([exResult, exFailResult].foldl
        (fun acc r => record acc r "" "" "2026-10-12") {}) "2026-10-12" = some row ∧
      outcomeTotal row = [exResult, exFailResult].length ∧
      actionTotal row = [exResult, exFailResult].length :=
  aggregate_consistency {} [exResult, exFailResult] "2026-10-12"
    (by decide) rfl (by decide)

/-- Every iteration of the engage loop takes exactly one delay, and
every delay taken respects the configured bounds (by `random.randint`'s
guarantee). -/
lemma engageGo_delay_bounds (ad : CommentAction) (llm : Option Completion)
    (rand : Nat → Int → Int → Int) (config : EngagementConfig)
    (hrand : ∀ n a b, a ≤ b → a ≤ rand n a b ∧ rand n a b ≤ b)
    (hmm : config.min_delay_seconds ≤ config.max_delay_seconds) :
    ∀ (posts : List Post) (i : Nat),
      (engageGo ad llm rand config posts i).trace.delays.length =
        (engageGo ad llm rand config posts i).trace.processed.length ∧
      ∀ d ∈ (engageGo ad llm rand config posts i).trace.delays,
        config.min_delay_seconds ≤ d ∧ d ≤ config.max_delay_seconds := by
  intro posts
  induction posts with
  | nil => intro i; simp [engageGo]
  | cons post rest ih =>
    intro i
    obtain ⟨ihl, ihm⟩ := ih (i + 1)
    by_cases hq : (i : Int) ≥ config.max_daily
    · simp [engageGo, hq]
    · rcases hg : generate_comment llm post config with _ | ⟨c, cs⟩
      · simp only [engageGo, if_neg hq, if_neg (not_lt.mpr hmm), hg]
        refine ⟨by simp [ihl], ?_⟩
        intro d hd
        rcases List.mem_cons.mp hd with rfl | hd2
        · exact hrand i _ _ hmm
        · exact ihm d hd2
      · rcases ha : ad post.post_id c with e | r
        · simp only [engageGo, if_neg hq, if_neg (not_lt.mpr hmm), hg, ha]
          refine ⟨rfl, ?_⟩
          intro d hd
          rcases List.mem_cons.mp hd with rfl | hd2
          · exact hrand i _ _ hmm
          · simp at hd2
        · simp only [engageGo, if_neg hq, if_neg (not_lt.mpr hmm), hg, ha]
          refine ⟨by simp [ihl], ?_⟩
          intro d hd
          rcases List.mem_cons.mp hd with rfl | hd2
          · exact hrand i _ _ hmm
          · exact ihm d hd2

/-- **C8.** In every `engage` call, each iteration of the post loop —
the first included, skipped iterations included — takes exactly one
delay, every delay lies in `[min_delay_seconds, max_delay_seconds]`,
and with `min = max = 0` every delay is zero.  (`rand` satisfies
`random.randint`'s guarantee, and `min ≤ max` so `randint` does not
raise.) -/
theorem pacing (ad : CommentAction) (llm : Option Completion)
    (rand : Nat → Int → Int → Int) (config : EngagementConfig) (posts : List Post)
    (hrand : ∀ n a b, a ≤ b → a ≤ rand n a b ∧ rand n a b ≤ b)
    (hmm : config.min_delay_seconds ≤ config.max_delay_seconds) :
    (engage ad llm rand config posts).trace.delays.length =
      (engage ad llm rand config posts).trace.processed.length ∧
    (∀ d ∈ (engage ad llm rand config posts).trace.delays,
      config.min_delay_seconds ≤ d ∧ d ≤ config.max_delay_seconds) ∧
    (config.min_delay_seconds = 0 → config.max_delay_seconds = 0 →
      ∀ d ∈ (engage ad llm rand config posts).trace.delays, d = 0) := by
  obtain ⟨h1, h2⟩ := engageGo_delay_bounds ad llm rand config hrand hmm posts 0
  refine ⟨h1, h2, ?_⟩
  intro hmin hmax d hd
  have := h2 d hd
  omega

/-- Witness for C8 at a concrete run (zero-delay configuration, one
skipping-free post). -/
theorem pacing_witness :
    (engage okAd none randLo exConfig [exPost "p1"]).trace.delays.length =
      (engage okAd none randLo exConfig [exPost "p1"]).trace.processed.length ∧
    (∀ d ∈ (engage okAd none randLo exConfig [exPost "p1"]).trace.delays,
      exConfig.min_delay_seconds ≤ d ∧ d ≤ exConfig.max_delay_seconds) ∧
    (exConfig.min_delay_seconds = 0 → exConfig.max_delay_seconds = 0 →
      ∀ d ∈ (engage okAd none randLo exConfig [exPost "p1"]).trace.delays, d = 0) :=
  pacing okAd none randLo exConfig [exPost "p1"]
    (fun _ a _ h => ⟨le_refl a, h⟩) (by decide)

/-- The engage loop appends at most `max_daily − i` outcomes from
iteration `i` on. -/
lemma engageGo_results_length (ad : CommentAction) (llm : Option Completion)
    (rand : Nat → Int → Int → Int) (config : EngagementConfig) :
    ∀ (posts : List Post) (i : Nat),
      ((engageGo ad llm rand config posts i).trace.results).length ≤
        (config.max_daily - (i : Int)).toNat := by
  intro posts
  induction posts with
  | nil => intro i; simp [engageGo]
  | cons post rest ih =>
    intro i
    by_cases hq : (i : Int) ≥ config.max_daily
    · simp [engageGo, hq]
    · have hlt : (i : Int) < config.max_daily := lt_of_not_ge hq
      by_cases hv : config.max_delay_seconds < config.min_delay_seconds
      · simp [engageGo, hq, hv]
      · rcases hg : generate_comment llm post config with _ | ⟨c, cs⟩
        · have h2 := ih (i + 1)
          simp only [engageGo, if_neg hq, if_neg hv, hg]
          refine le_trans h2 ?_
          omega
        · rcases ha : ad post.post_id c with e | r
          · simp [engageGo, hq, hv, hg, ha]
          · have h2 := ih (i + 1)
            simp only [engageGo, if_neg hq, if_neg hv, hg, ha, List.length_cons]
            omega

/-- With an adapter that never raises (the adapter interface's
contract) and a sane delay range, the engage loop finishes without an
exception, runs exactly the quota window of posts, and returns one
outcome per attempted post — the adapter's outcome, successful or
failed, in order. -/
lemma engageGo_nonraising (ad : CommentAction) (llm : Option Completion)
    (rand : Nat → Int → Int → Int) (config : EngagementConfig)
    (had : ∀ pid c, ∃ r, ad pid c = Except.ok r)
    (hmm : config.min_delay_seconds ≤ config.max_delay_seconds) :
    ∀ (posts : List Post) (i : Nat),
      (engageGo ad llm rand config posts i).exc = none ∧
      (engageGo ad llm rand config posts i).trace.processed =
        posts.take (config.max_daily - (i : Int)).toNat ∧
      (engageGo ad llm rand config posts i).trace.results =
        ((posts.take (config.max_daily - (i : Int)).toNat).filter
          (fun p => !(generate_comment llm p config).isEmpty)).map
          (attemptOutcome ad llm config) := by
  intro posts
  induction posts with
  | nil => intro i; simp [engageGo]
  | cons post rest ih =>
    intro i
    obtain ⟨ihe, ihp, ihr⟩ := ih (i + 1)
    by_cases hq : (i : Int) ≥ config.max_daily
    · have h0 : (config.max_daily - (i : Int)).toNat = 0 := by omega
      simp [engageGo, hq, h0]
    · have hlt : (i : Int) < config.max_daily := lt_of_not_ge hq
      have htn : (config.max_daily - (i : Int)).toNat =
          (config.max_daily - ((i + 1 : Nat) : Int)).toNat + 1 := by
        push_cast
        omega
      rcases hg : generate_comment llm post config with _ | ⟨c, cs⟩
      · simp only [engageGo, if_neg hq, if_neg (not_lt.mpr hmm), hg]
        refine ⟨ihe, ?_, ?_⟩
        · rw [htn, List.take_succ_cons]
          simp [ihp]
        · rw [htn, List.take_succ_cons, List.filter_cons]
          simp [hg, ihr]
      · obtain ⟨r, hr⟩ := had post.post_id c
        simp only [engageGo, if_neg hq, if_neg (not_lt.mpr hmm), hg, hr]
        refine ⟨ihe, ?_, ?_⟩
        · rw [htn, List.take_succ_cons]
          simp [ihp]
        · rw [htn, List.take_succ_cons, List.filter_cons]
          have hatt : attemptOutcome ad llm config post = r := by
            simp [attemptOutcome, hg, hr]
          simp [hg, ihr, hatt]

/-- **C3.** One `engage` call with `max_daily = k` returns at most k
Engagement Outcomes whatever the input list — and, under the adapter
interface's no-raise contract and a sane delay range, reaching the
limit stops the loop without raising. -/
theorem daily_quota (ad : CommentAction) (llm : Option Completion)
    (rand : Nat → Int → Int → Int) (config : EngagementConfig)
    (posts : List Post) (k : Nat) (hk : config.max_daily = (k : Int)) :
    (engage ad llm rand config posts).trace.results.length ≤ k ∧
    ((∀ pid c, ∃ r, ad pid c = Except.ok r) →
      config.min_delay_seconds ≤ config.max_delay_seconds →
      (engage ad llm rand config posts).exc = none) := by
  constructor
  · have h := engageGo_results_length ad llm rand config posts 0
    rw [hk] at h
    simpa [engage] using h
  · intro had hmm
    exact (engageGo_nonraising ad llm rand config had hmm posts 0).1

/-- Witness for C3: cap 2 against three posts yields at most 2
outcomes, no exception. -/
theorem daily_quota_witness :
    (engage okAd none randLo exConfig
      [exPost "p1", exPost "p2", exPost "p3"]).trace.results.length ≤ 2 ∧
    ((∀ pid c, ∃ r, okAd pid c = Except.ok r) →
      exConfig.min_delay_seconds ≤ exConfig.max_delay_seconds →
      (engage okAd none randLo exConfig
        [exPost "p1", exPost "p2", exPost "p3"]).exc = none) :=
  daily_quota okAd none randLo exConfig [exPost "p1", exPost "p2", exPost "p3"] 2 rfl

/-- **C1 counterexample.** With an adapter whose `comment` raises,
`engage` does not catch the exception: no failed Engagement Outcome is
appended, the exception escapes, and the remaining posts are never
processed — against the claim that the exception is converted into a
failed outcome and the loop continues. -/
theorem raising_adapter_aborts :
    (engage raiseAd none randLo exConfig [exPost "p1", exPost "p2"]).exc = some "boom" ∧
    (engage raiseAd none randLo exConfig [exPost "p1", exPost "p2"]).trace.results = [] ∧
    (engage raiseAd none randLo exConfig [exPost "p1", exPost "p2"]).trace.processed =
      [exPost "p1"] :=
  ⟨rfl, rfl, rfl⟩

/-- **C1 (amended).** `engage` does not catch exceptions of the
adapter's `comment`; but under the adapter interface's contract —
failures are reported in the returned outcome, never raised — every
attempted post's outcome, failed ones included, is appended to the
result list, the loop continues with the remaining posts, and no
exception escapes. -/
theorem failed_outcome_appended (ad : CommentAction) (llm : Option Completion)
    (rand : Nat → Int → Int → Int) (config : EngagementConfig) (posts : List Post)
    (had : ∀ pid c, ∃ r, ad pid c = Except.ok r)
    (hmm : config.min_delay_seconds ≤ config.max_delay_seconds) :
    (engage ad llm rand config posts).exc = none ∧
    (engage ad llm rand config posts).trace.processed =
      posts.take config.max_daily.toNat ∧
    (engage ad llm rand config posts).trace.results =
      ((posts.take config.max_daily.toNat).filter
        (fun p => !(generate_comment llm p config).isEmpty)).map
        (attemptOutcome ad llm config) := by
  have h := engageGo_nonraising ad llm rand config had hmm posts 0
  simpa [engage] using h

/-- Witness for C1's amended claim: a never-raising adapter that always
reports failure; both posts are attempted, both failed outcomes are in
the result list, no exception. -/
theorem failed_outcome_appended_witness :
    (engage failAd none randLo exConfig [exPost "p1", exPost "p2"]).exc = none ∧
    (engage failAd none randLo exConfig [exPost "p1", exPost "p2"]).trace.processed =
      ([exPost "p1", exPost "p2"].take exConfig.max_daily.toNat) ∧
    (engage failAd none randLo exConfig [exPost "p1", exPost "p2"]).trace.results =
      (([exPost "p1", exPost "p2"].take exConfig.max_daily.toNat).filter
        (fun p => !(generate_comment none p exConfig).isEmpty)).map
        (attemptOutcome failAd none exConfig) :=
  failed_outcome_appended failAd none randLo exConfig [exPost "p1", exPost "p2"]
    (fun pid c => ⟨_, rfl⟩) (by decide)

/-- The template fallback always returns exactly 5 comments. -/
lemma generate_template_comments_length (post : Post) (config : EngagementConfig) :
    (generate_template_comments post config).length = 5 := by
  simp [generate_template_comments, comment_templates]

/-- **C4 counterexample.** When the completion capability raises,
`generate_comment` does not return an empty list: it falls back to the
template comments — here a list of exactly 5 entries. -/
theorem llm_exception_gives_templates :
    generate_comment (some raisingLLM) (exPost "p1") exConfig =
      generate_template_comments (exPost "p1") exConfig ∧
    generate_comment (some raisingLLM) (exPost "p1") exConfig ≠ [] ∧
    (generate_comment (some raisingLLM) (exPost "p1") exConfig).length = 5 := by
  have hlen : (generate_comment (some raisingLLM) (exPost "p1") exConfig).length = 5 :=
    generate_template_comments_length (exPost "p1") exConfig
  exact ⟨rfl, List.ne_nil_of_length_pos (by rw [hlen]; omega), hlen⟩

/-- **C4 (amended).** When the completion capability raises during
comment generation, `generate_comment` does not propagate the
exception: it returns the deterministic template fallback — a non-empty
list of at most 5 comments — not an empty list.  When the capability
returns a response that cannot be parsed (no JSON-array match and no
stripped line longer than 10 characters), `generate_comment` returns
the empty list. -/
theorem generation_failure_fallback (post : Post) (config : EngagementConfig)
    (complete : Completion) :
    ((∃ e, complete (build_comment_prompt post config) (8 / 10 : ℚ) = Except.error e) →
      generate_comment (some complete) post config =
        generate_template_comments post config ∧
      generate_comment (some complete) post config ≠ [] ∧
      (generate_comment (some complete) post config).length ≤ 5) ∧
    (∀ response, complete (build_comment_prompt post config) (8 / 10 : ℚ) =
        Except.ok response →
      findJsonSpan response = none →
      (∀ l ∈ (response.splitOn "\n").map String.trim, l.length ≤ 10) →
      generate_comment (some complete) post config = []) := by
  constructor
  · rintro ⟨e, he⟩
    have heq : generate_comment (some complete) post config =
        generate_template_comments post config := by
      simp [generate_comment, he]
    have hlen := generate_template_comments_length post config
    refine ⟨heq, ?_, ?_⟩
    · rw [heq]
      exact List.ne_nil_of_length_pos (by rw [hlen]; omega)
    · rw [heq, hlen]
  · intro response hok hspan hshort
    simp only [generate_comment, hok, parse_comments, hspan]
    rw [List.filter_eq_nil_iff]
    intro l hl
    have hl2 : l ∈ (response.splitOn "\n").map String.trim :=
      List.mem_of_mem_filter hl
    have := hshort l hl2
    simp
    omega

/-- Witness for C4's amended claim: the always-raising completion
capability yields the non-empty template fallback. -/
theorem generation_failure_fallback_witness :
    generate_comment (some raisingLLM) (exPost "p2") exConfig ≠ [] :=
  ((generation_failure_fallback (exPost "p2") exConfig raisingLLM).1
    ⟨"rate limited", rfl⟩).2.1

end SocialEngager
